import Mathlib

/-!
Verification of the sylar concurrency substrate (fiber / scheduler /
timer / epoll-driven event loop / libc hook layer).

The definitions below are a shallow embedding of the C++ sources:

* `Sylar.Timer`, `Sylar.TimerManager` — `sylar/fiber/timer.h` and its
  implementation file (`Timer::Comparator`, `TimerManager::getNextTimer`,
  `TimerManager::listExpiredCb`, `TimerManager::detectClockRollover`,
  `TimerManager::addTimer`).
* `Sylar.FdContext`, `Sylar.IoState` — `sylar/fiber/iomanager.cc`
  (`FdContext::triggerEvent`, `IOManager::cancelEvent`,
  `IOManager::stopping`, `IOManager::idle`).
* `Sylar.SchedState` — `Scheduler::stopping` from `scheduler.cc`.
* `Sylar.FdCtx`, `Sylar.FdManagerState` — `sylar/fiber/fd_manager.cc`
  (`FdManager::get`, `FdManager::del`).
* `Sylar.Fiber` — `sylar/fiber/fiber.cc` (`Fiber::reset`).
* the `do_io` / `usleep` / connect-timeout material — `sylar/net/hook.cc`.

Machine integers are modelled as `Nat` with explicit `% 2^64` (resp.
32-bit masks) where the C++ arithmetic can wrap.  Callbacks, fibers and
schedulers are identified by opaque numeric ids; `Option` encodes null
pointers.  Functions that can hit a `SYLAR_ASSERT` (process abort)
return `Option`, with `none` standing for the abort.
-/

namespace Sylar

/-! ## Word arithmetic helpers (uint64 / uint32 semantics) -/

/-- Constant `2^64`, the modulus of `uint64_t` arithmetic. -/
def U64MOD : Nat := 18446744073709551616

/-- Constant `(uint64_t)-1` = `~0ull`, used by the code as the "no timer / no
timeout" sentinel. -/
def U64MAX : Nat := 18446744073709551615

/-- Difference `a - b` in `uint64_t` arithmetic (wraps below zero). -/
def sub64 (a b : Nat) : Nat := (a + U64MOD - b % U64MOD) % U64MOD

/-- Decrement `n - 1` in `uint64_t`/`size_t` arithmetic, as in `--m_pendingEventCount`. -/
def dec64 (n : Nat) : Nat := (n + U64MOD - 1) % U64MOD

/-- Clear the bits of `ev` inside a 32-bit mask `m`, i.e. `m & ~ev` on
`uint32_t` operands. -/
def clear32 (m ev : Nat) : Nat := m &&& (4294967295 ^^^ (ev &&& 4294967295))

/-! ## Timer model (`timer.h` / `Timer`, `TimerManager`)

A `Timer` mirrors the fields of `class Timer`; `tid` stands for the
object's address, which `Timer::Comparator` uses to tie-break equal
deadlines, and the callback `m_cb` is an opaque id (`none` = `nullptr`).
`TimerManager.m_timers` holds the contents of the `std::set` in
comparator order. -/

structure Timer where
  m_recurring : Bool
  m_ms : Nat
  m_next : Nat
  m_cb : Option Nat
  tid : Nat
deriving Repr, DecidableEq

/-- Comparator `Timer::Comparator::operator()` for two non-null timers: ascending
absolute deadline, ties broken by object address.  (The null-pointer
branches of the comparator never apply to set elements.) -/
def timerLt (a b : Timer) : Bool :=
  if a.m_next < b.m_next then true
  else if b.m_next < a.m_next then false
  else a.tid < b.tid

/-- State of a `TimerManager`: the ordered timer set and the
last-observed timestamp used by `detectClockRollover`. -/
structure TimerManager where
  m_timers : List Timer
  m_previouseTime : Nat
deriving Repr, DecidableEq

/-- Ordered insertion into the `std::set` (`m_timers.insert`); an
equivalent element (same deadline and address) is not inserted twice. -/
def setInsert : List Timer → Timer → List Timer
  | [], t => [t]
  | x :: xs, t =>
    if timerLt t x then t :: x :: xs
    else if timerLt x t then x :: setInsert xs t
    else x :: xs

/-- Insert a list of timers one by one, in program order (the loop at
the end of `listExpiredCb` re-inserts recurring timers as it meets
them). -/
def setInsertAll (s : List Timer) : List Timer → List Timer
  | [] => s
  | t :: ts => setInsertAll (setInsert s t) ts

/-- Function `TimerManager::getNextTimer`: `~0ull` when the set is empty, `0`
when the earliest timer already expired, otherwise the remaining
milliseconds. -/
def getNextTimer (m : TimerManager) (now_ms : Nat) : Nat :=
  match m.m_timers with
  | [] => U64MAX
  | next :: _ => if next.m_next ≤ now_ms then 0 else next.m_next - now_ms

/-- Function `TimerManager::hasTimer`. -/
def hasTimer (m : TimerManager) : Bool := !m.m_timers.isEmpty

/-- Function `TimerManager::detectClockRollover`: rollover is declared when `now`
is smaller than the last observation by more than one hour
(`60 * 60 * 1000` ms, computed in `uint64_t` arithmetic); the
last-observed timestamp is always updated. -/
def detectClockRollover (m : TimerManager) (now_ms : Nat) : Bool × TimerManager :=
  let rollover :=
    decide (now_ms < m.m_previouseTime) &&
    decide (now_ms < sub64 m.m_previouseTime (60 * 60 * 1000))
  (rollover, { m with m_previouseTime := now_ms })

/-- The probe object `Timer(now_ms)` that `listExpiredCb` builds for
`lower_bound`; `pid` is its heap address. -/
def probeTimer (now_ms pid : Nat) : Timer :=
  { m_recurring := false, m_ms := 0, m_next := now_ms, m_cb := none, tid := pid }

/-- Model of `std::set::lower_bound(now_timer)` on the ordered list: the number
of leading elements strictly below the probe. -/
def lowerBoundIdx (ts : List Timer) (probe : Timer) : Nat :=
  (ts.takeWhile (fun t => timerLt t probe)).length

/-- The loop over the `expired` vector at the end of `listExpiredCb`:
for each timer, push its callback, then either reschedule it
(`m_next = now_ms + m_ms`, to be re-inserted into the set) or clear its
callback.  Returns `(cbs, processed, reinserted)` where `processed` is
the state of the extracted timer objects after the loop and
`reinserted` the recurring ones that go back into the set. -/
def expireLoop (now_ms : Nat) : List Timer → List (Option Nat) × List Timer × List Timer
  | [] => ([], [], [])
  | t :: ts =>
    let rest := expireLoop now_ms ts
    if t.m_recurring then
      let t2 : Timer := { t with m_next := now_ms + t.m_ms }
      (t.m_cb :: rest.1, t2 :: rest.2.1, t2 :: rest.2.2)
    else
      let t2 : Timer := { t with m_cb := none }
      (t.m_cb :: rest.1, t2 :: rest.2.1, rest.2.2)

/-- Result of one `listExpiredCb` call: the appended callbacks, the
extracted timer objects after processing, and the new manager state. -/
structure ExpireResult where
  cbs : List (Option Nat)
  expired : List Timer
  mgr : TimerManager
deriving Repr, DecidableEq

/-- Function `TimerManager::listExpiredCb`.  Here `now_ms` is the value of
`GetCurrentMS()` at entry and `pid` the address of the probe timer
`Timer(now_ms)` built for `lower_bound`.  Faithful to the source: empty
set returns early (before the rollover check); otherwise the rollover
flag decides between taking the whole set and
`lower_bound(now_timer)` extended over the run of deadlines equal to
`now_ms`; extracted recurring timers are re-inserted with
`m_next = now_ms + m_ms`, and non-recurring ones get `m_cb = nullptr`. -/
def listExpiredCb (m : TimerManager) (now_ms pid : Nat) : ExpireResult :=
  if m.m_timers.isEmpty then { cbs := [], expired := [], mgr := m }
  else
    let rm := detectClockRollover m now_ms
    let rollover := rm.1
    let m1 := rm.2
    if !rollover && (match m1.m_timers with
                     | [] => false
                     | t :: _ => now_ms < t.m_next) then
      { cbs := [], expired := [], mgr := m1 }
    else
      let now_timer : Timer := probeTimer now_ms pid
      let k0 := if rollover then m1.m_timers.length else lowerBoundIdx m1.m_timers now_timer
      let k := k0 + ((m1.m_timers.drop k0).takeWhile (fun t => t.m_next == now_ms)).length
      let ex := m1.m_timers.take k
      let rest := m1.m_timers.drop k
      let r := expireLoop now_ms ex
      { cbs := r.1
        expired := r.2.1
        mgr := { m1 with m_timers := setInsertAll rest r.2.2 } }

/-- Function `TimerManager::addTimer(ms, cb, recurring)`: builds
`Timer(ms, cb, recurring, this)` with `m_next = GetCurrentMS() + ms` and
inserts it; the second component reports whether the insertion landed at
the front of the set (which makes the manager call
`onTimerInsertedAtFront`, i.e. `tickle`). -/
def addTimer (m : TimerManager) (ms : Nat) (cb : Option Nat) (recurring : Bool)
    (now_ms tid : Nat) : TimerManager × Bool :=
  let t : Timer :=
    { m_recurring := recurring, m_ms := ms, m_next := now_ms + ms, m_cb := cb, tid := tid }
  let s := setInsert m.m_timers t
  ({ m with m_timers := s }, match s with
                             | [] => false
                             | x :: _ => x == t)

/-- The `std::set` ordering invariant: the stored list is strictly
increasing for `Timer::Comparator`. -/
def TimersSorted (ts : List Timer) : Prop :=
  List.Pairwise (fun a b => timerLt a b = true) ts

/-- How `listExpiredCb` rewrites an extracted timer: recurring timers
are rescheduled one period after `now`, one-shot timers lose their
callback. -/
def expireUpd (now_ms : Nat) (t : Timer) : Timer :=
  if t.m_recurring then { t with m_next := now_ms + t.m_ms } else { t with m_cb := none }

/-- The split index computed by `listExpiredCb` (`lower_bound` plus the
run of deadlines equal to `now_ms`). -/
def splitIdx (ts : List Timer) (now_ms pid : Nat) : Nat :=
  lowerBoundIdx ts (probeTimer now_ms pid) +
    ((ts.drop (lowerBoundIdx ts (probeTimer now_ms pid))).takeWhile
      (fun t => t.m_next == now_ms)).length

/-! ## IOManager model (`iomanager.h` / `iomanager.cc`)

Event masks use the numeric values of the source (`READ = 0x1`,
`WRITE = 0x4`, matching `EPOLLIN` / `EPOLLOUT`).  The kernel side of
`epoll_ctl` is modelled as a map from fd to the registered mask
(`none` = no interest); the model assumes `epoll_ctl` succeeds (the
code logs and bails out on failure).  `schedule` on a scheduler is
modelled as appending to a single task queue. -/

def READ : Nat := 1
def WRITE : Nat := 4
def EPOLLIN : Nat := 1
def EPOLLOUT : Nat := 4
def EPOLLERR : Nat := 8
def EPOLLHUP : Nat := 16
def EPOLLET : Nat := 2147483648
def EPOLL_CTL_ADD : Nat := 1
def EPOLL_CTL_DEL : Nat := 2
def EPOLL_CTL_MOD : Nat := 3

/-- A task handed to `Scheduler::schedule`: either a callback or a
fiber, each named by an opaque id. -/
inductive Task where
  | cbTask (c : Nat)
  | fiberTask (f : Nat)
deriving Repr, DecidableEq

/-- Structure `IOManager::FdContext::EventContext`. -/
structure EventContext where
  scheduler : Option Nat := none
  fiber : Option Nat := none
  cb : Option Nat := none
deriving Repr, DecidableEq

/-- Structure `IOManager::FdContext` (the epoll-side per-fd record). -/
structure FdContext where
  read : EventContext := {}
  write : EventContext := {}
  fd : Nat := 0
  events : Nat := 0
deriving Repr, DecidableEq

/-- Function `FdContext::getEventContext`; `none` models the
`SYLAR_ASSERT2(false, ...)` on an invalid event value. -/
def getEventContext (c : FdContext) (ev : Nat) : Option EventContext :=
  if ev = READ then some c.read
  else if ev = WRITE then some c.write
  else none

/-- Store back the event context selected by `getEventContext`. -/
def setEventContext (c : FdContext) (ev : Nat) (e : EventContext) : FdContext :=
  if ev = READ then { c with read := e }
  else if ev = WRITE then { c with write := e }
  else c

/-- The task that `triggerEvent` enqueues for an event context: the
callback when one is registered, else the fiber; `schedule` drops an
entry that carries neither. -/
def waiterTask (e : EventContext) : Option Task :=
  if e.cb.isSome then e.cb.map Task.cbTask
  else e.fiber.map Task.fiberTask

/-- Function `FdContext::triggerEvent`: asserts the event is registered
(`none` = abort), strips it from the interest mask, schedules the
registered callback or fiber (the `schedule(&ptr)` overload swaps the
waiter out of the context), and nulls the scheduler pointer.  Returns
the updated context and the scheduled task, if any. -/
def triggerEvent (c : FdContext) (ev : Nat) : Option (FdContext × Option Task) :=
  if c.events &&& ev = 0 then none
  else
    match getEventContext c ev with
    | none => none
    | some e =>
      let c1 : FdContext := { c with events := clear32 c.events ev }
      if e.cb.isSome then
        some (setEventContext c1 ev { e with scheduler := none, cb := none },
          e.cb.map Task.cbTask)
      else
        some (setEventContext c1 ev { e with scheduler := none, fiber := none },
          e.fiber.map Task.fiberTask)

/-- Mutable state of an `IOManager` proper: the per-fd context table,
the pending-event counter, the kernel epoll interest map, the queue of
scheduled tasks, and the read end of the tickle pipe. -/
structure IoState where
  m_fdContexts : List FdContext
  m_pendingEventCount : Nat
  epollReg : Nat → Option Nat
  tasks : List Task
  m_tickleRead : Nat

/-- Function `IOManager::cancelEvent`: out-of-range fd or unregistered event
return `false` without changes; otherwise the epoll interest is re-armed
with the remaining mask (`MOD`) or deleted (`DEL`), the waiter is
force-triggered, and the pending-event count is decremented
(`size_t` arithmetic).  `none` models an assertion abort inside
`triggerEvent`. -/
def cancelEvent (m : IoState) (fd ev : Nat) : Option (Bool × IoState) :=
  match m.m_fdContexts[fd]? with
  | none => some (false, m)
  | some c =>
    if c.events &&& ev = 0 then some (false, m)
    else
      let new_events := clear32 c.events ev
      let op := if new_events ≠ 0 then EPOLL_CTL_MOD else EPOLL_CTL_DEL
      let ep2 : Nat → Option Nat := fun x =>
        if x = fd then
          (if op = EPOLL_CTL_DEL then none else some (EPOLLET ||| new_events))
        else m.epollReg x
      match triggerEvent c ev with
      | none => none
      | some r =>
        some (true,
          { m with
            m_fdContexts := m.m_fdContexts.set fd r.1,
            m_pendingEventCount := dec64 m.m_pendingEventCount,
            epollReg := ep2,
            tasks := m.tasks ++ r.2.toList })

/-- The fields of the base `Scheduler` that `Scheduler::stopping`
reads. -/
structure SchedState where
  m_autoStop : Bool
  m_stopping : Bool
  m_fibers : List Task
  m_activeThreadCount : Nat
deriving Repr, DecidableEq

/-- Predicate `Scheduler::stopping`:
`m_autoStop && m_stopping && m_fibers.empty() && m_activeThreadCount == 0`. -/
def schedulerStopping (s : SchedState) : Bool :=
  s.m_autoStop && s.m_stopping && s.m_fibers.isEmpty &&
    decide (s.m_activeThreadCount = 0)

/-- The complete state of an `IOManager`, which inherits from both
`Scheduler` and `TimerManager`. -/
structure IoManagerState where
  sched : SchedState
  io : IoState
  timers : TimerManager

/-- Predicate `IOManager::stopping`:
`m_pendingEventCount == 0 && Scheduler::stopping()`. -/
def ioStopping (st : IoManagerState) : Bool :=
  decide (st.io.m_pendingEventCount = 0) && schedulerStopping st.sched

/-! ## The idle loop (`IOManager::idle`) -/

/-- The hard-coded epoll timeout in `IOManager::idle`:
`static const uint64_t MAX_TIMEOUT = 5000`. -/
def MAX_TIMEOUT : Nat := 5000

/-- One entry of the `events` array as reported by `epoll_wait`:
`dataFd` holds the fd whose `FdContext` the event's `data.ptr` points at
(the tickle event was registered with `data.fd`), `events` the reported
epoll mask. -/
structure EpollEventRec where
  dataFd : Nat
  events : Nat
deriving Repr, DecidableEq

/-- The body of the per-event `for` loop in `IOManager::idle`: skip the
tickle pipe (after draining it), fold `EPOLLERR|EPOLLHUP` into the
currently-interested directions, drop stale events, re-arm epoll with
the remaining interest (or delete it), then trigger the ready READ and
WRITE directions, decrementing the pending count for each.  `none`
models an assertion abort in `triggerEvent` (and a dangling
`data.ptr`, which cannot occur). -/
def processEvent (m : IoState) (e : EpollEventRec) : Option IoState :=
  if e.dataFd = m.m_tickleRead then some m
  else
    match m.m_fdContexts[e.dataFd]? with
    | none => none
    | some c =>
      let evs := if e.events &&& (EPOLLERR ||| EPOLLHUP) ≠ 0
                 then e.events ||| ((EPOLLIN ||| EPOLLOUT) &&& c.events)
                 else e.events
      let real_events := (if evs &&& EPOLLIN ≠ 0 then READ else 0) |||
                         (if evs &&& EPOLLOUT ≠ 0 then WRITE else 0)
      if c.events &&& real_events = 0 then some m
      else
        let left_events := clear32 c.events real_events
        let op := if left_events ≠ 0 then EPOLL_CTL_MOD else EPOLL_CTL_DEL
        let ep2 : Nat → Option Nat := fun x =>
          if x = c.fd then
            (if op = EPOLL_CTL_DEL then none else some (EPOLLET ||| left_events))
          else m.epollReg x
        let step1 : Option (FdContext × List Task) :=
          if real_events &&& READ ≠ 0 then
            (triggerEvent c READ).map (fun r => (r.1, r.2.toList))
          else some (c, [])
        match step1 with
        | none => none
        | some s1 =>
          let step2 : Option (FdContext × List Task) :=
            if real_events &&& WRITE ≠ 0 then
              (triggerEvent s1.1 WRITE).map (fun r => (r.1, r.2.toList))
            else some (s1.1, [])
          match step2 with
          | none => none
          | some s2 =>
            let dec := (if real_events &&& READ ≠ 0 then 1 else 0) +
                       (if real_events &&& WRITE ≠ 0 then 1 else 0)
            some { m with
              m_fdContexts := m.m_fdContexts.set e.dataFd s2.1,
              epollReg := ep2,
              m_pendingEventCount := dec64^[dec] m.m_pendingEventCount,
              tasks := m.tasks ++ s1.2 ++ s2.2 }

/-- The `for (int i = 0; i < rt; ++i)` loop over the ready events. -/
def processEvents : IoState → List EpollEventRec → Option IoState
  | m, [] => some m
  | m, e :: es =>
    match processEvent m e with
    | none => none
    | some m2 => processEvents m2 es

/-- One pass of the `while (true)` body of `IOManager::idle` after the
`stopping()` check: the first component is the timeout passed to
`epoll_wait` — the constant `MAX_TIMEOUT`, the loop neither consults
`getNextTimer` nor calls `listExpiredCb` — and the second is the state
after dispatching the ready events `ready` that `epoll_wait`
reported. -/
def idleIteration (m : IoState) (ready : List EpollEventRec) : Nat × Option IoState :=
  (MAX_TIMEOUT, processEvents m ready)

/-- The state of an `EventContext` after `triggerEvent` has scheduled
its waiter: the scheduler pointer is nulled and the scheduled waiter
(callback or fiber) has been swapped out by `schedule(&ptr)`. -/
def triggeredCtx (e : EventContext) : EventContext :=
  if e.cb.isSome then { e with scheduler := none, cb := none }
  else { e with scheduler := none, fiber := none }

/-! ## Concrete states used by witnesses and counterexamples -/

/-- A one-fd `IOManager` with a READ waiter fiber 9 (scheduler id 1)
registered on fd 0. -/
def wFdCtx : FdContext :=
  { read := { scheduler := some 1, fiber := some 9, cb := none },
    write := {}, fd := 0, events := READ }

def wIo : IoState :=
  { m_fdContexts := [wFdCtx], m_pendingEventCount := 1,
    epollReg := fun x => if x = 0 then some (EPOLLET ||| READ) else none,
    tasks := [], m_tickleRead := 5 }

/-- An `IOManager` whose scheduler part is ready to stop (`auto_stop`
set, stop requested, empty queue, no active workers, no pending events)
while one timer with deadline 999 is still pending. -/
def stopW : IoManagerState :=
  { sched := { m_autoStop := true, m_stopping := true, m_fibers := [],
               m_activeThreadCount := 0 },
    io := { m_fdContexts := [], m_pendingEventCount := 0,
            epollReg := fun _ => none, tasks := [], m_tickleRead := 0 },
    timers := { m_timers := [{ m_recurring := false, m_ms := 0, m_next := 999,
                               m_cb := some 1, tid := 1 }],
                m_previouseTime := 0 } }

/-- An idle `IoState` (no fd contexts, nothing scheduled). -/
def idleIo : IoState :=
  { m_fdContexts := [], m_pendingEventCount := 0,
    epollReg := fun _ => none, tasks := [], m_tickleRead := 0 }

/-- A timer manager holding one timer that expired at 990 ms (callback
id 5). -/
def idleTm : TimerManager :=
  { m_timers := [{ m_recurring := false, m_ms := 0, m_next := 990,
                   m_cb := some 5, tid := 1 }],
    m_previouseTime := 0 }

/-! ## Per-descriptor context (`fd_manager.cc` / `FdCtx`, `FdManager`)

`FdCtx::init` calls `fstat` and the raw `fcntl`; those externals are
parameters (`fstatOk`, `isSock`).  `ctxId` is the allocation identity of
the `new FdCtx`, used to tell distinct creations apart. -/

structure FdCtx where
  m_isInit : Bool
  m_isSocket : Bool
  m_sysNonblock : Bool
  m_userNonblock : Bool
  m_isClosed : Bool
  m_fd : Nat
  m_recvTimeout : Nat
  m_sendTimeout : Nat
  ctxId : Nat
deriving Repr, DecidableEq

/-- Constructor `FdCtx::FdCtx(fd)` followed by `init()`: timeouts default to
`(uint64_t)-1`; on `fstat` failure only `m_isInit`/`m_isSocket` are
settled; on success a socket is forced non-blocking at kernel level
(`m_sysNonblock = true`), a non-socket is left alone. -/
def newFdCtx (fd newId : Nat) (fstatOk isSock : Bool) : FdCtx :=
  if !fstatOk then
    { m_isInit := false, m_isSocket := false, m_sysNonblock := false,
      m_userNonblock := false, m_isClosed := false, m_fd := fd,
      m_recvTimeout := U64MAX, m_sendTimeout := U64MAX, ctxId := newId }
  else
    { m_isInit := true, m_isSocket := isSock, m_sysNonblock := isSock,
      m_userNonblock := false, m_isClosed := false, m_fd := fd,
      m_recvTimeout := U64MAX, m_sendTimeout := U64MAX, ctxId := newId }

/-- The `FdManager` table (`m_datas`); the constructor pre-sizes it to
64 null slots. -/
structure FdManagerState where
  m_datas : List (Option FdCtx)
deriving Repr, DecidableEq

def fdmInit : FdManagerState := ⟨List.replicate 64 none⟩

/-- Outcome of the read-locked fast path of `FdManager::get`. -/
inductive GetFast where
  | ret (r : Option FdCtx)
  | slow
deriving Repr, DecidableEq

/-- The fast path of `FdManager::get` (under the read lock): return the
existing slot, return null when absent and `auto_create` is off, or
fall through to the write-locked slow path.  (The `fd == -1` guard of
the source concerns invalid descriptors, outside the `Nat` fd
domain.) -/
def FdManagerState.getFast (m : FdManagerState) (fd : Nat) (auto_create : Bool) :
    GetFast :=
  if m.m_datas.length ≤ fd then
    if auto_create = false then GetFast.ret none else GetFast.slow
  else
    match m.m_datas.getD fd none with
    | some ctx => GetFast.ret (some ctx)
    | none => if !auto_create then GetFast.ret none else GetFast.slow

/-- Model of `std::vector::resize(n)`: truncate or pad with null. -/
def cppResize (l : List (Option FdCtx)) (n : Nat) : List (Option FdCtx) :=
  if n ≤ l.length then l.take n
  else l ++ List.replicate (n - l.length) none

/-- The slow path of `FdManager::get` (under the write lock): build a
fresh `FdCtx` unconditionally — there is no second existence check —
grow the table to `fd * 1.5` (integer-truncated) when needed, and store
the new context over whatever the slot held. -/
def FdManagerState.getSlow (m : FdManagerState) (fd newId : Nat)
    (fstatOk isSock : Bool) : FdCtx × FdManagerState :=
  let ctx := newFdCtx fd newId fstatOk isSock
  let datas := if m.m_datas.length ≤ fd then cppResize m.m_datas (fd * 3 / 2)
               else m.m_datas
  (ctx, ⟨datas.set fd (some ctx)⟩)

/-- Function `FdManager::get` run by a single thread without interleaving. -/
def FdManagerState.get (m : FdManagerState) (fd : Nat) (auto_create : Bool)
    (newId : Nat) (fstatOk isSock : Bool) : Option FdCtx × FdManagerState :=
  match m.getFast fd auto_create with
  | GetFast.ret r => (r, m)
  | GetFast.slow =>
    let r := m.getSlow fd newId fstatOk isSock
    (some r.1, r.2)

/-! Concurrency model for `FdManager::get`: each thread executes the
fast path (one read-locked critical section) and, if needed, the slow
path (one write-locked critical section) as separate atomic steps; a
schedule interleaves the steps of two threads.  `created` counts
`new FdCtx` allocations. -/

inductive ThreadPhase where
  | start
  | needSlow
  | done (r : Option FdCtx)
deriving Repr, DecidableEq

structure RaceState where
  mgr : FdManagerState
  t1 : ThreadPhase
  t2 : ThreadPhase
  nextId : Nat
  created : Nat
deriving Repr, DecidableEq

/-- One critical section of one thread calling
`get(fd, auto_create = true)`: the fast path from `start`, the slow
path from `needSlow`.  Returns the new manager state, the thread's new
phase, the next fresh allocation id, and how many `FdCtx` were
allocated (0 or 1). -/
def threadStep (mgr : FdManagerState) (ph : ThreadPhase) (fd nextId : Nat) :
    FdManagerState × ThreadPhase × Nat × Nat :=
  match ph with
  | ThreadPhase.start =>
    match mgr.getFast fd true with
    | GetFast.ret r => (mgr, ThreadPhase.done r, nextId, 0)
    | GetFast.slow => (mgr, ThreadPhase.needSlow, nextId, 0)
  | ThreadPhase.needSlow =>
    let r := mgr.getSlow fd nextId true true
    (r.2, ThreadPhase.done (some r.1), nextId + 1, 1)
  | ThreadPhase.done r => (mgr, ThreadPhase.done r, nextId, 0)

/-- Run one scheduled step: `true` steps thread 1, `false` thread 2. -/
def raceStep (fd : Nat) (s : RaceState) (which : Bool) : RaceState :=
  if which then
    let r := threadStep s.mgr s.t1 fd s.nextId
    { mgr := r.1, t1 := r.2.1, t2 := s.t2, nextId := r.2.2.1,
      created := s.created + r.2.2.2 }
  else
    let r := threadStep s.mgr s.t2 fd s.nextId
    { mgr := r.1, t1 := s.t1, t2 := r.2.1, nextId := r.2.2.1,
      created := s.created + r.2.2.2 }

def raceRun (fd : Nat) (s : RaceState) : List Bool → RaceState
  | [] => s
  | w :: ws => raceRun fd (raceStep fd s w) ws

/-- Both threads about to call `get(fd, true)` on a fresh manager. -/
def raceInit : RaceState := ⟨fdmInit, ThreadPhase.start, ThreadPhase.start, 1, 0⟩

/-! ## Hook layer (`hook.cc`) -/

def EAGAIN : Nat := 11
def EINTR : Nat := 4
def ETIMEDOUT : Nat := 110
def EBADF : Nat := 9

/-- The symbols listed in the `HOOK_FUN` macro (their original versions
are resolved with `dlsym(RTLD_NEXT, ...)` in `hook_init`). -/
def hookFunList : List String :=
  ["sleep", "usleep", "nanosleep", "socket", "connect", "accept",
   "read", "readv", "recv", "recvfrom", "recvmsg",
   "write", "writev", "send", "sendto", "sendmsg",
   "close", "fcntl", "ioctl", "getsockopt", "setsockopt"]

/-- The interposer functions that `hook.cc` actually defines in its
`extern "C"` block. -/
def hookImplList : List String :=
  ["sleep", "usleep", "nanosleep",
   "read", "readv", "recv", "recvfrom", "recvmsg",
   "write", "writev", "send", "sendto", "sendmsg",
   "close", "fcntl", "ioctl", "getsockopt", "setsockopt"]

/-- Default of the config entry
`Config::Lookup("tcp.connect.timeout", 5000, "tcp connect timeout")`. -/
def tcpConnectTimeoutDefault : Int := 5000

/-- An `int` assigned into the `uint64_t s_connect_timeout`. -/
def intToU64 (v : Int) : Nat := (v % (U64MOD : Int)).toNat

/-- Events that write `s_connect_timeout`: the `_HookIniter`
constructor (reads the config value) and the config listener (receives
old and new value). -/
inductive HookEvent where
  | initer (configValue : Int)
  | listener (old_value new_value : Int)
deriving Repr, DecidableEq

def sConnectTimeoutStep (_s : Nat) : HookEvent → Nat
  | HookEvent.initer v => intToU64 v
  | HookEvent.listener _ new_value => intToU64 new_value

/-- Value of `s_connect_timeout` after a sequence of events, starting
from its static initializer `(uint64_t)-1`. -/
def sConnectTimeout (evs : List HookEvent) : Nat :=
  evs.foldl sConnectTimeoutStep U64MAX

/-- What one round of the `do_io` loop does once the original call has
returned `rt` with the given `errno`. -/
inductive DoIoStep where
  | ret (rt : Int)
  | registerWaitRetry
deriving Repr, DecidableEq

/-- The branch structure of the `do_io` loop body (hook.cc): return
unless `rt == -1` with `errno` in `{EAGAIN, EINTR}`; in both of those
cases register the event on the IOManager (waiter = current fiber) and
`YieldToHold` (the final `else` is unreachable). -/
def do_io_decision (rt : Int) (errno : Nat) : DoIoStep :=
  if rt ≠ -1 ∨ (errno ≠ EAGAIN ∧ errno ≠ EINTR) then DoIoStep.ret rt
  else if errno = EAGAIN ∨ errno = EINTR then DoIoStep.registerWaitRetry
  else DoIoStep.ret rt

/-- What `do_io` does after the fiber has been resumed from
`YieldToHold` and cancelled the timer. -/
inductive ResumeStep where
  | timedOut
  | retryLoop
deriving Repr, DecidableEq

/-- Post-resume check of `do_io`: `errno == ETIMEDOUT` returns `-1`,
anything else loops back and retries the original call. -/
def do_io_afterResume (errno : Nat) : ResumeStep :=
  if errno = ETIMEDOUT then ResumeStep.timedOut else ResumeStep.retryLoop

/-- The transparency guard at the top of `do_io`: the original function
is called directly when the hook is disabled for the thread, the
`FdCtx` is missing, closed, or not a socket, the user asked for
non-blocking semantics, or no IOManager runs on the thread. -/
def do_io_passthrough (hookEnabled : Bool) (ctx : Option FdCtx)
    (iomPresent : Bool) : Bool :=
  if !hookEnabled then true
  else
    match ctx with
    | none => true
    | some c =>
      if c.m_isClosed || !c.m_isSocket || c.m_userNonblock then true
      else !iomPresent

/-- Result of the hooked `usleep`. -/
inductive UsleepOutcome where
  | original
  | hooked (tm : TimerManager) (front : Bool) (ret : Int)

/-- The hooked `usleep(usec)`: with the hook disabled or no
current-thread IOManager it falls back to `usleep_f`; otherwise it arms
`addTimer(usec / 1000, ...)` (whose callback re-schedules the calling
fiber, id `cb`), yields to hold, and returns 0. -/
def usleep (hookEnabled iomPresent : Bool) (usec : Nat) (tm : TimerManager)
    (now_ms tid cb : Nat) : UsleepOutcome :=
  if !hookEnabled then UsleepOutcome.original
  else if !iomPresent then UsleepOutcome.original
  else
    let r := addTimer tm (usec / 1000) (some cb) false now_ms tid
    UsleepOutcome.hooked r.1 r.2 0

/-! ## Fiber (`fiber.cc`) -/

inductive FiberState where
  | INIT
  | READY
  | EXEC
  | HOLD
  | TERM
  | EXCEPT
deriving Repr, DecidableEq

/-- The `Fiber` fields relevant to `reset`: `m_stack = none` models the
stackless main fiber, `some a` a child fiber owning a stack at `a`. -/
structure Fiber where
  m_id : Nat
  m_state : FiberState
  m_stack : Option Nat
  m_stacksize : Nat
  m_cb : Option Nat
  m_runInScheduler : Bool
deriving Repr, DecidableEq

/-- Function `Fiber::reset(cb)`: asserts the fiber owns a stack and is in
`TERM`, `EXCEPT` or `INIT` (`none` = assertion abort); on success it
rebinds the closure, rebuilds the machine context on the same stack
(`makecontext` with the existing `m_stack`/`m_stacksize`) and moves to
`READY`. -/
def Fiber.reset (f : Fiber) (cb : Nat) : Option Fiber :=
  if f.m_stack.isNone then none
  else if f.m_state = FiberState.TERM ∨ f.m_state = FiberState.EXCEPT ∨
      f.m_state = FiberState.INIT then
    some { f with m_cb := some cb, m_state := FiberState.READY }
  else none

/-! ## Theorems -/

theorem timerLt_le {a b : Timer} (h : timerLt a b = true) : a.m_next ≤ b.m_next := by
  unfold timerLt at h
  split at h
  · omega
  · split at h
    · exact absurd h (by simp)
    · omega

theorem expireLoop_spec (now_ms : Nat) (ex : List Timer) :
    expireLoop now_ms ex =
      (ex.map (·.m_cb), ex.map (expireUpd now_ms),
        (ex.filter (·.m_recurring)).map (expireUpd now_ms)) := by
  induction ex with
  | nil => rfl
  | cons t ts ih =>
    by_cases hr : t.m_recurring
    · simp [expireLoop, ih, hr, expireUpd]
    · simp [expireLoop, ih, hr, expireUpd]

/-- On a deadline-monotone list, the prefix of timers with
`m_next ≤ now` is all of them: `takeWhile` and `filter` agree. -/
theorem mono_takeWhile_filter_le (now_ms : Nat) :
    ∀ ts : List Timer, List.Pairwise (fun a b : Timer => a.m_next ≤ b.m_next) ts →
      ts.takeWhile (fun t => decide (t.m_next ≤ now_ms)) =
        ts.filter (fun t => decide (t.m_next ≤ now_ms)) := by
  intro ts
  induction ts with
  | nil => intro _; rfl
  | cons t ts ih =>
    intro hp
    rcases List.pairwise_cons.mp hp with ⟨hhead, htail⟩
    by_cases h : t.m_next ≤ now_ms
    · simp [List.takeWhile_cons, List.filter_cons, h, ih htail]
    · have hall : ∀ u ∈ ts, ¬ u.m_next ≤ now_ms := by
        intro u hu hle
        exact h (le_trans (hhead u hu) hle)
      have hfil : List.filter (fun t : Timer => decide (t.m_next ≤ now_ms)) ts = [] := by
        rw [List.filter_eq_nil_iff]
        intro u hu
        simpa using hall u hu
      simp [List.takeWhile_cons, List.filter_cons, h, hfil]

/-- Counterpart of `mono_takeWhile_filter_le` for the suffix. -/
theorem mono_dropWhile_filter_gt (now_ms : Nat) :
    ∀ ts : List Timer, List.Pairwise (fun a b : Timer => a.m_next ≤ b.m_next) ts →
      ts.dropWhile (fun t => decide (t.m_next ≤ now_ms)) =
        ts.filter (fun t => decide (now_ms < t.m_next)) := by
  intro ts
  induction ts with
  | nil => intro _; rfl
  | cons t ts ih =>
    intro hp
    rcases List.pairwise_cons.mp hp with ⟨hhead, htail⟩
    by_cases h : t.m_next ≤ now_ms
    · have : ¬ now_ms < t.m_next := by omega
      simp [List.dropWhile_cons, List.filter_cons, h, this, ih htail]
    · have hgt : now_ms < t.m_next := by omega
      have hall : ∀ u ∈ ts, now_ms < u.m_next := by
        intro u hu
        exact lt_of_lt_of_le hgt (hhead u hu)
      have hfil : List.filter (fun t : Timer => decide (now_ms < t.m_next)) ts = ts := by
        rw [List.filter_eq_self]
        intro u hu
        simpa using hall u hu
      simp [List.dropWhile_cons, List.filter_cons, h, hgt, hfil]

/-- Helper for the boundary: on a list whose deadlines all sit at or
after `now`, the run of deadlines equal to `now` is exactly the prefix
of deadlines `≤ now`. -/
theorem run_take_drop (now_ms : Nat) :
    ∀ ts : List Timer, (∀ u ∈ ts, now_ms ≤ u.m_next) →
      ts.take ((ts.takeWhile (fun t => t.m_next == now_ms)).length) =
          ts.takeWhile (fun t => decide (t.m_next ≤ now_ms)) ∧
        ts.drop ((ts.takeWhile (fun t => t.m_next == now_ms)).length) =
          ts.dropWhile (fun t => decide (t.m_next ≤ now_ms)) := by
  intro ts
  induction ts with
  | nil => intro _; exact ⟨rfl, rfl⟩
  | cons t ts ih =>
    intro hge
    have hh : now_ms ≤ t.m_next := hge t (by simp)
    by_cases h : t.m_next = now_ms
    · have hle : t.m_next ≤ now_ms := le_of_eq h
      have ihr := ih (fun u hu => hge u (by simp [hu]))
      simp only [List.takeWhile_cons, List.dropWhile_cons, h, beq_self_eq_true, if_true,
        decide_True, le_refl, List.length_cons, List.take_succ_cons, List.drop_succ_cons]
      exact ⟨by rw [ihr.1], by rw [ihr.2]⟩
    · have hgt : ¬ t.m_next ≤ now_ms := by omega
      have hne : (t.m_next == now_ms) = false := by simp [h]
      simp [List.takeWhile_cons, List.dropWhile_cons, hne, hgt]

/-- The central boundary fact: on a comparator-sorted list the index
computed from `lower_bound` plus the equal-deadline run splits the list
exactly at "deadline ≤ now". -/
theorem splitIdx_take_drop (now_ms pid : Nat) :
    ∀ ts : List Timer, TimersSorted ts →
      ts.take (splitIdx ts now_ms pid) =
          ts.takeWhile (fun t => decide (t.m_next ≤ now_ms)) ∧
        ts.drop (splitIdx ts now_ms pid) =
          ts.dropWhile (fun t => decide (t.m_next ≤ now_ms)) := by
  intro ts
  induction ts with
  | nil => intro _; exact ⟨rfl, rfl⟩
  | cons t ts ih =>
    intro hs
    rcases List.pairwise_cons.mp hs with ⟨hhead, htail⟩
    by_cases hlt : timerLt t (probeTimer now_ms pid) = true
    · have hle : t.m_next ≤ now_ms := by
        have := timerLt_le hlt
        simpa [probeTimer] using this
      have ihr := ih htail
      have hidx : splitIdx (t :: ts) now_ms pid = splitIdx ts now_ms pid + 1 := by
        simp only [splitIdx, lowerBoundIdx, List.takeWhile_cons, hlt, if_true,
          List.length_cons, List.drop_succ_cons]
        omega
      simp only [hidx, List.take_succ_cons, List.takeWhile_cons, List.dropWhile_cons,
        decide_eq_true_eq, hle, decide_True, if_true, List.drop_succ_cons]
      exact ⟨by rw [ihr.1], by rw [ihr.2]⟩
    · have hidx0 : lowerBoundIdx (t :: ts) (probeTimer now_ms pid) = 0 := by
        simp [lowerBoundIdx, List.takeWhile_cons, hlt]
      have hnlt : ¬ t.m_next < now_ms := by
        intro hc
        apply hlt
        unfold timerLt
        simp [probeTimer, hc]
      by_cases heq : t.m_next = now_ms
      · have hge : ∀ u ∈ t :: ts, now_ms ≤ u.m_next := by
          intro u hu
          rcases List.mem_cons.mp hu with h | h
          · subst h
            omega
          · calc now_ms = t.m_next := heq.symm
              _ ≤ u.m_next := timerLt_le (hhead u h)
        have hrun := run_take_drop now_ms (t :: ts) hge
        have hidx : splitIdx (t :: ts) now_ms pid =
            ((t :: ts).takeWhile (fun u => u.m_next == now_ms)).length := by
          simp [splitIdx, hidx0]
        rw [hidx]
        exact hrun
      · have hgt : now_ms < t.m_next := by omega
        have hidx : splitIdx (t :: ts) now_ms pid = 0 := by
          have hne : (t.m_next == now_ms) = false := by simp [heq]
          simp [splitIdx, hidx0, List.takeWhile_cons, hne]
        have hnle : ¬ t.m_next ≤ now_ms := by omega
        simp [hidx, List.takeWhile_cons, List.dropWhile_cons, hnle]

theorem sorted_deadline_mono {ts : List Timer} (hs : TimersSorted ts) :
    List.Pairwise (fun a b : Timer => a.m_next ≤ b.m_next) ts :=
  hs.imp timerLt_le

/-- C6: for every `listExpiredCb` call at time `now` (absent clock
rollover), exactly the timers with `deadline ≤ now` are removed from the
set and their callbacks appended in deadline order; recurring extracted
timers are re-inserted with `deadline = now + period`, non-recurring
ones get their callback cleared. -/
theorem timer_expire_exact (m : TimerManager) (now_ms pid : Nat)
    (hs : TimersSorted m.m_timers)
    (hnr : (detectClockRollover m now_ms).1 = false) :
    (listExpiredCb m now_ms pid).cbs =
        (m.m_timers.filter (fun t => decide (t.m_next ≤ now_ms))).map (·.m_cb) ∧
      (listExpiredCb m now_ms pid).expired =
        (m.m_timers.filter (fun t => decide (t.m_next ≤ now_ms))).map (expireUpd now_ms) ∧
      (listExpiredCb m now_ms pid).mgr.m_timers =
        setInsertAll (m.m_timers.filter (fun t => decide (now_ms < t.m_next)))
          (((m.m_timers.filter (fun t => decide (t.m_next ≤ now_ms))).filter
            (·.m_recurring)).map (expireUpd now_ms)) ∧
      List.Pairwise (fun a b : Timer => a.m_next ≤ b.m_next)
        (m.m_timers.filter (fun t => decide (t.m_next ≤ now_ms))) := by
  obtain ⟨ts, prev⟩ := m
  have hflag : (decide (now_ms < prev) &&
      decide (now_ms < sub64 prev (60 * 60 * 1000))) = false := by
    simpa [detectClockRollover] using hnr
  have hmono : List.Pairwise (fun a b : Timer => a.m_next ≤ b.m_next) ts :=
    sorted_deadline_mono hs
  cases ts with
  | nil => simp [listExpiredCb, setInsertAll]
  | cons t ts0 =>
    rcases List.pairwise_cons.mp hmono with ⟨hhead, _⟩
    by_cases hhd : now_ms < t.m_next
    · have hres : listExpiredCb ⟨t :: ts0, prev⟩ now_ms pid =
          { cbs := [], expired := [], mgr := ⟨t :: ts0, now_ms⟩ } := by
        simp [listExpiredCb, detectClockRollover, hflag, hhd]
      have hallgt : ∀ u ∈ t :: ts0, now_ms < u.m_next := by
        intro u hu
        rcases List.mem_cons.mp hu with h | h
        · subst h
          exact hhd
        · exact lt_of_lt_of_le hhd (hhead u h)
      have hnil : (t :: ts0).filter (fun u => decide (u.m_next ≤ now_ms)) = [] := by
        rw [List.filter_eq_nil_iff]
        intro u hu
        have := hallgt u hu
        simp
        omega
      have hself : (t :: ts0).filter (fun u => decide (now_ms < u.m_next)) = t :: ts0 := by
        rw [List.filter_eq_self]
        intro u hu
        simpa using hallgt u hu
      rw [hres, hnil, hself]
      refine ⟨rfl, rfl, rfl, List.Pairwise.nil⟩
    · have hres : listExpiredCb ⟨t :: ts0, prev⟩ now_ms pid =
          { cbs := ((t :: ts0).take (splitIdx (t :: ts0) now_ms pid)).map (·.m_cb),
            expired := ((t :: ts0).take (splitIdx (t :: ts0) now_ms pid)).map
              (expireUpd now_ms),
            mgr := ⟨setInsertAll ((t :: ts0).drop (splitIdx (t :: ts0) now_ms pid))
              ((((t :: ts0).take (splitIdx (t :: ts0) now_ms pid)).filter
                (·.m_recurring)).map (expireUpd now_ms)), now_ms⟩ } := by
        simp [listExpiredCb, detectClockRollover, hflag, hhd, splitIdx,
          expireLoop_spec]
      have hsplit := splitIdx_take_drop now_ms pid (t :: ts0) hs
      have htake : (t :: ts0).take (splitIdx (t :: ts0) now_ms pid) =
          (t :: ts0).filter (fun u => decide (u.m_next ≤ now_ms)) := by
        rw [hsplit.1]
        exact mono_takeWhile_filter_le now_ms _ hmono
      have hdrop : (t :: ts0).drop (splitIdx (t :: ts0) now_ms pid) =
          (t :: ts0).filter (fun u => decide (now_ms < u.m_next)) := by
        rw [hsplit.2]
        exact mono_dropWhile_filter_gt now_ms _ hmono
      rw [hres, htake, hdrop]
      exact ⟨rfl, rfl, rfl, hmono.filter _⟩

/-- Witness for C6 at a concrete manager: three timers at deadlines 5,
8 (recurring, period 10) and 20, observed at `now = 10`. -/
theorem timer_expire_exact_witness :
    TimersSorted [⟨false, 0, 5, some 1, 1⟩, ⟨true, 10, 8, some 2, 2⟩,
        ⟨false, 0, 20, some 3, 3⟩] ∧
      ((listExpiredCb ⟨[⟨false, 0, 5, some 1, 1⟩, ⟨true, 10, 8, some 2, 2⟩,
          ⟨false, 0, 20, some 3, 3⟩], 4⟩ 10 99).cbs =
        (([⟨false, 0, 5, some 1, 1⟩, ⟨true, 10, 8, some 2, 2⟩,
          ⟨false, 0, 20, some 3, 3⟩] : List Timer).filter
            (fun t => decide (t.m_next ≤ 10))).map (·.m_cb) ∧
        (listExpiredCb ⟨[⟨false, 0, 5, some 1, 1⟩, ⟨true, 10, 8, some 2, 2⟩,
          ⟨false, 0, 20, some 3, 3⟩], 4⟩ 10 99).expired =
        (([⟨false, 0, 5, some 1, 1⟩, ⟨true, 10, 8, some 2, 2⟩,
          ⟨false, 0, 20, some 3, 3⟩] : List Timer).filter
            (fun t => decide (t.m_next ≤ 10))).map (expireUpd 10) ∧
        (listExpiredCb ⟨[⟨false, 0, 5, some 1, 1⟩, ⟨true, 10, 8, some 2, 2⟩,
          ⟨false, 0, 20, some 3, 3⟩], 4⟩ 10 99).mgr.m_timers =
        setInsertAll (([⟨false, 0, 5, some 1, 1⟩, ⟨true, 10, 8, some 2, 2⟩,
          ⟨false, 0, 20, some 3, 3⟩] : List Timer).filter
            (fun t => decide (10 < t.m_next)))
          ((((([⟨false, 0, 5, some 1, 1⟩, ⟨true, 10, 8, some 2, 2⟩,
          ⟨false, 0, 20, some 3, 3⟩] : List Timer).filter
            (fun t => decide (t.m_next ≤ 10))).filter
            (·.m_recurring)).map (expireUpd 10))) ∧
        List.Pairwise (fun a b : Timer => a.m_next ≤ b.m_next)
          (([⟨false, 0, 5, some 1, 1⟩, ⟨true, 10, 8, some 2, 2⟩,
          ⟨false, 0, 20, some 3, 3⟩] : List Timer).filter
            (fun t => decide (t.m_next ≤ 10)))) :=
  ⟨by unfold TimersSorted; decide,
    timer_expire_exact _ 10 99 (by unfold TimersSorted; decide) (by decide)⟩

/-- C7: when the observed time moved backward by more than one hour
relative to the last-observed timestamp, that `listExpiredCb` pass
extracts every timer in the set and collects all their callbacks,
regardless of deadline. -/
theorem timer_rollover_all (m : TimerManager) (now_ms pid : Nat)
    (hback : now_ms + 60 * 60 * 1000 < m.m_previouseTime)
    (hrange : m.m_previouseTime < U64MOD) :
    (listExpiredCb m now_ms pid).cbs = m.m_timers.map (·.m_cb) ∧
      (listExpiredCb m now_ms pid).expired = m.m_timers.map (expireUpd now_ms) ∧
      (listExpiredCb m now_ms pid).mgr.m_timers =
        setInsertAll [] ((m.m_timers.filter (·.m_recurring)).map (expireUpd now_ms)) := by
  obtain ⟨ts, prev⟩ := m
  dsimp only at hback hrange
  have hsub : sub64 prev (60 * 60 * 1000) = prev - 60 * 60 * 1000 := by
    unfold sub64 U64MOD
    unfold U64MOD at hrange
    omega
  have hflag : (decide (now_ms < prev) &&
      decide (now_ms < sub64 prev (60 * 60 * 1000))) = true := by
    rw [hsub]
    simp only [Bool.and_eq_true, decide_eq_true_eq]
    omega
  cases ts with
  | nil => simp [listExpiredCb, setInsertAll]
  | cons t ts0 =>
    have hres : listExpiredCb ⟨t :: ts0, prev⟩ now_ms pid =
        { cbs := (t :: ts0).map (·.m_cb),
          expired := (t :: ts0).map (expireUpd now_ms),
          mgr := ⟨setInsertAll []
            (((t :: ts0).filter (·.m_recurring)).map (expireUpd now_ms)), now_ms⟩ } := by
      simp [listExpiredCb, detectClockRollover, hflag, expireLoop_spec,
        List.take_of_length_le, List.drop_eq_nil_of_le]
    rw [hres]
    exact ⟨rfl, rfl, rfl⟩

/-- Witness for C7: time fell back from `10^7` ms to `1000` ms (more
than an hour); the single timer with the far deadline `999999` is still
collected. -/
theorem timer_rollover_all_witness :
    1000 + 60 * 60 * 1000 < 10000000 ∧
      (listExpiredCb ⟨[⟨false, 0, 999999, some 7, 1⟩], 10000000⟩ 1000 42).cbs =
        ([⟨false, 0, 999999, some 7, 1⟩] : List Timer).map (·.m_cb) :=
  ⟨by norm_num,
    (timer_rollover_all ⟨[⟨false, 0, 999999, some 7, 1⟩], 10000000⟩ 1000 42
      (by norm_num) (by norm_num [U64MOD])).1⟩

/-! ## Theorems about `IOManager` -/

theorem clear32_and_self {m ev : Nat} (hev : ev = READ ∨ ev = WRITE) :
    clear32 m ev &&& ev = 0 := by
  rcases hev with h | h <;> subst h <;> rw [clear32, Nat.and_assoc]
  · have h1 : (4294967295 ^^^ (READ &&& 4294967295)) &&& READ = 0 := by decide
    rw [h1, Nat.and_zero]
  · have h1 : (4294967295 ^^^ (WRITE &&& 4294967295)) &&& WRITE = 0 := by decide
    rw [h1, Nat.and_zero]

theorem epollet_or_and {ne ev : Nat} (hev : ev = READ ∨ ev = WRITE)
    (h : ne &&& ev = 0) : (EPOLLET ||| ne) &&& ev = 0 := by
  rw [Nat.and_distrib_right, h]
  rcases hev with h2 | h2 <;> subst h2
  · have h1 : EPOLLET &&& READ = 0 := by decide
    rw [h1]
    decide
  · have h1 : EPOLLET &&& WRITE = 0 := by decide
    rw [h1]
    decide

theorem triggerEvent_eq (c : FdContext) (ev : Nat)
    (hev : ev = READ ∨ ev = WRITE) (hreg : c.events &&& ev ≠ 0) :
    triggerEvent c ev = some
      (setEventContext { c with events := clear32 c.events ev } ev
        (triggeredCtx (if ev = READ then c.read else c.write)),
       waiterTask (if ev = READ then c.read else c.write)) := by
  rcases hev with h | h <;> subst h
  · by_cases hcb : c.read.cb.isSome <;>
      simp [triggerEvent, getEventContext, triggeredCtx, waiterTask, hreg, hcb]
  · have hreg4 : ¬ c.events &&& 4 = 0 := by simpa [WRITE] using hreg
    by_cases hcb : c.write.cb.isSome <;>
      simp [triggerEvent, getEventContext, triggeredCtx, waiterTask, READ, WRITE,
        hreg4, hcb]

/-- C8: for a registered event, `cancelEvent(fd, ev)` returns `true`,
schedules the attached waiter exactly once, leaves the fd with no
interest in `ev` (epoll re-armed with the remaining mask, or deleted
when none remains) and decrements the pending-event count by one; for
an unregistered event (or out-of-range fd) it returns `false` and
changes nothing. -/
theorem cancelEvent_spec (m : IoState) (fd ev : Nat)
    (hev : ev = READ ∨ ev = WRITE) :
    (m.m_fdContexts[fd]? = none → cancelEvent m fd ev = some (false, m)) ∧
      (∀ c, m.m_fdContexts[fd]? = some c →
        (c.events &&& ev = 0 → cancelEvent m fd ev = some (false, m)) ∧
        (c.events &&& ev ≠ 0 → 0 < m.m_pendingEventCount →
          m.m_pendingEventCount < U64MOD →
          ∃ st, cancelEvent m fd ev = some (true, st) ∧
            st.tasks = m.tasks ++
              (waiterTask (if ev = READ then c.read else c.write)).toList ∧
            st.m_pendingEventCount = m.m_pendingEventCount - 1 ∧
            (∀ k, st.epollReg fd = some k → k &&& ev = 0) ∧
            (clear32 c.events ev = 0 → st.epollReg fd = none) ∧
            (clear32 c.events ev ≠ 0 →
              st.epollReg fd = some (EPOLLET ||| clear32 c.events ev)) ∧
            (∃ c2, st.m_fdContexts[fd]? = some c2 ∧ c2.events &&& ev = 0))) := by
  constructor
  · intro hnone
    simp [cancelEvent, hnone]
  · intro c hc
    constructor
    · intro hz
      simp [cancelEvent, hc, hz]
    · intro hreg hpos hlt
      have hfd : fd < m.m_fdContexts.length := (List.getElem?_eq_some.mp hc).1
      have hdec : dec64 m.m_pendingEventCount = m.m_pendingEventCount - 1 := by
        unfold dec64 U64MOD
        unfold U64MOD at hlt
        omega
      have hclr : clear32 c.events ev &&& ev = 0 := clear32_and_self hev
      have hres : cancelEvent m fd ev = some (true,
          { m with
            m_fdContexts := m.m_fdContexts.set fd
              (setEventContext { c with events := clear32 c.events ev } ev
                (triggeredCtx (if ev = READ then c.read else c.write))),
            m_pendingEventCount := dec64 m.m_pendingEventCount,
            epollReg := fun x =>
              if x = fd then
                (if (if clear32 c.events ev ≠ 0 then EPOLL_CTL_MOD
                     else EPOLL_CTL_DEL) = EPOLL_CTL_DEL then none
                 else some (EPOLLET ||| clear32 c.events ev))
              else m.epollReg x,
            tasks := m.tasks ++
              (waiterTask (if ev = READ then c.read else c.write)).toList }) := by
        simp only [cancelEvent, hc, triggerEvent_eq c ev hev hreg]
        rw [if_neg hreg]
      refine ⟨_, hres, rfl, hdec, ?_, ?_, ?_, ?_⟩
      · intro k hk
        by_cases hleft : clear32 c.events ev = 0
        · simp [hleft] at hk
        · simp [hleft, EPOLL_CTL_MOD, EPOLL_CTL_DEL] at hk
          subst hk
          exact epollet_or_and hev hclr
      · intro hleft
        simp [hleft]
      · intro hleft
        simp [hleft, EPOLL_CTL_MOD, EPOLL_CTL_DEL]
      · refine ⟨_, List.getElem?_set_self hfd, ?_⟩
        rcases hev with h | h <;> subst h <;>
          simpa [setEventContext, READ, WRITE] using hclr

/-- Witness for C8: cancelling the registered READ event on fd 0 of a
concrete one-fd manager. -/
theorem cancelEvent_spec_witness :
    ∃ st, cancelEvent wIo 0 READ = some (true, st) ∧
      st.tasks = wIo.tasks ++
        (waiterTask (if READ = READ then wFdCtx.read else wFdCtx.write)).toList ∧
      st.m_pendingEventCount = wIo.m_pendingEventCount - 1 ∧
      (∀ k, st.epollReg 0 = some k → k &&& READ = 0) ∧
      (clear32 wFdCtx.events READ = 0 → st.epollReg 0 = none) ∧
      (clear32 wFdCtx.events READ ≠ 0 →
        st.epollReg 0 = some (EPOLLET ||| clear32 wFdCtx.events READ)) ∧
      (∃ c2, st.m_fdContexts[0]? = some c2 ∧ c2.events &&& READ = 0) :=
  ((cancelEvent_spec wIo 0 READ (Or.inl rfl)).2 wFdCtx (by decide)).2
    (by decide) (by decide) (by decide)

/-- C4 counterexample: `IOManager::stopping()` does not consult the
timer set — it returns `true` on a state that still has a pending timer
(`next_timer_deadline()` finite), contradicting the claim that
`stopping()` is true only when the timer set is empty. -/
theorem ioStopping_ignores_timers_counterexample :
    ioStopping stopW = true ∧ hasTimer stopW.timers = true ∧
      getNextTimer stopW.timers 0 ≠ U64MAX := by
  refine ⟨rfl, rfl, ?_⟩
  decide

/-- C4 (amended): `IOManager::stopping()` returns `true` exactly when
`pending_event_count == 0` and the base `Scheduler::stopping()`
predicate holds (`auto_stop`, stop requested, empty queue, no active
workers); the timer set plays no role. -/
theorem ioStopping_iff (st : IoManagerState) :
    ioStopping st = true ↔
      (st.io.m_pendingEventCount = 0 ∧ st.sched.m_autoStop = true ∧
        st.sched.m_stopping = true ∧ st.sched.m_fibers = [] ∧
        st.sched.m_activeThreadCount = 0) := by
  simp [ioStopping, schedulerStopping, List.isEmpty_iff, and_assoc]

/-- C1 counterexample: at a state whose earliest timer expired at
990 ms (observed time 1000 ms, so `next_timeout()` is 0), the idle
iteration still passes the constant 5000 ms to `epoll_wait` — not
bounded by `min(MAX_TIMEOUT, next_timeout())` — and schedules no task
for the expired callback. -/
theorem idle_timeout_counterexample :
    ¬ ((idleIteration idleIo []).1 ≤ min MAX_TIMEOUT (getNextTimer idleTm 1000) ∧
        ∃ st, (idleIteration idleIo []).2 = some st ∧
          ∀ cb ∈ (listExpiredCb idleTm 1000 0).cbs,
            ∃ c, cb = some c ∧ Task.cbTask c ∈ st.tasks) := by
  intro h
  exact absurd h.1 (by decide)

/-- C1 (amended): every iteration of `IOManager::idle` passes the
constant `MAX_TIMEOUT` (5000 ms) to `epoll_wait`, independent of any
timer state, and an iteration with no ready fd events changes nothing —
in particular it collects and schedules no timer callbacks even when
timers have expired. -/
theorem idle_const_timeout (m : IoState) (ready : List EpollEventRec) :
    (idleIteration m ready).1 = MAX_TIMEOUT ∧ (idleIteration m []).2 = some m :=
  ⟨rfl, rfl⟩

/-- C5 (code bug): interleaving two `get(5, auto_create = true)` calls
— both fast paths see the empty slot before either slow path runs —
allocates two distinct `FdCtx` objects for fd 5; the second install
overwrites the first, because the slow path re-checks nothing under the
write lock.  Thread 1 is left holding a context that the manager no
longer stores. -/
theorem fdmanager_get_race :
    (raceRun 5 raceInit [true, false, true, false]).created = 2 ∧
      (raceRun 5 raceInit [true, false, true, false]).t1 =
        ThreadPhase.done (some (newFdCtx 5 1 true true)) ∧
      (raceRun 5 raceInit [true, false, true, false]).t2 =
        ThreadPhase.done (some (newFdCtx 5 2 true true)) ∧
      (raceRun 5 raceInit [true, false, true, false]).mgr.m_datas.getD 5 none =
        some (newFdCtx 5 2 true true) ∧
      newFdCtx 5 1 true true ≠ newFdCtx 5 2 true true := by
  decide

/-- C5 sanity check: run sequentially, the second call finds the first
call's context and returns it without creating another. -/
theorem fdmanager_get_sequential :
    (raceRun 5 raceInit [true, true, false]).created = 1 ∧
      (raceRun 5 raceInit [true, true, false]).t2 =
        ThreadPhase.done (some (newFdCtx 5 1 true true)) ∧
      (raceRun 5 raceInit [true, true, false]).t1 =
        ThreadPhase.done (some (newFdCtx 5 1 true true)) := by
  decide

/-- C9: `Fiber::reset(cb)` succeeds exactly on a stack-owning fiber in
`TERM`, `EXCEPT` or `INIT` (any other state aborts on the assertion);
on success it keeps the same stack and size, rebinds the closure, and
leaves the fiber `READY` with identity unchanged. -/
theorem fiber_reset_spec (f : Fiber) (cb : Nat) :
    ((Fiber.reset f cb).isSome ↔
        (f.m_stack.isSome ∧ (f.m_state = FiberState.TERM ∨
          f.m_state = FiberState.EXCEPT ∨ f.m_state = FiberState.INIT))) ∧
      (∀ f2, Fiber.reset f cb = some f2 →
        f2.m_state = FiberState.READY ∧ f2.m_stack = f.m_stack ∧
        f2.m_stacksize = f.m_stacksize ∧ f2.m_cb = some cb ∧
        f2.m_id = f.m_id ∧ f2.m_runInScheduler = f.m_runInScheduler) := by
  constructor
  · by_cases hstk : f.m_stack.isNone
    · simp [Fiber.reset, hstk, Option.isNone_iff_eq_none.mp hstk]
    · by_cases hst : f.m_state = FiberState.TERM ∨ f.m_state = FiberState.EXCEPT ∨
          f.m_state = FiberState.INIT
      · simp [Fiber.reset, hstk, hst]
        rw [Option.isSome_iff_ne_none]
        intro hcon
        exact hstk (Option.isNone_iff_eq_none.mpr hcon)
      · simp [Fiber.reset, hstk, hst]
  · intro f2 h2
    unfold Fiber.reset at h2
    by_cases hstk : f.m_stack.isNone
    · simp [hstk] at h2
    · by_cases hst : f.m_state = FiberState.TERM ∨ f.m_state = FiberState.EXCEPT ∨
          f.m_state = FiberState.INIT
      · rw [if_neg (by simpa using hstk), if_pos hst] at h2
        cases h2
        simp
      · simp [hstk, hst] at h2

/-- Witness for C9: resetting a terminated child fiber (stack handle
4096, size 131072) with closure 7 yields a `READY` fiber on the same
stack. -/
theorem fiber_reset_spec_witness :
    Fiber.reset ⟨3, FiberState.TERM, some 4096, 131072, some 1, true⟩ 7 =
        some ⟨3, FiberState.READY, some 4096, 131072, some 7, true⟩ ∧
      ((⟨3, FiberState.READY, some 4096, 131072, some 7, true⟩ : Fiber).m_state =
          FiberState.READY ∧
        (⟨3, FiberState.READY, some 4096, 131072, some 7, true⟩ : Fiber).m_stack =
          (⟨3, FiberState.TERM, some 4096, 131072, some 1, true⟩ : Fiber).m_stack ∧
        (⟨3, FiberState.READY, some 4096, 131072, some 7, true⟩ : Fiber).m_stacksize =
          (⟨3, FiberState.TERM, some 4096, 131072, some 1, true⟩ : Fiber).m_stacksize ∧
        (⟨3, FiberState.READY, some 4096, 131072, some 7, true⟩ : Fiber).m_cb =
          some 7 ∧
        (⟨3, FiberState.READY, some 4096, 131072, some 7, true⟩ : Fiber).m_id =
          (⟨3, FiberState.TERM, some 4096, 131072, some 1, true⟩ : Fiber).m_id ∧
        (⟨3, FiberState.READY, some 4096, 131072, some 7, true⟩ : Fiber).m_runInScheduler =
          (⟨3, FiberState.TERM, some 4096, 131072, some 1, true⟩ : Fiber).m_runInScheduler) :=
  ⟨by decide,
    (fiber_reset_spec ⟨3, FiberState.TERM, some 4096, 131072, some 1, true⟩ 7).2
      _ (by decide)⟩

/-- C2 counterexample: `connect` appears in the `HOOK_FUN` resolution
list, but `hook.cc` defines no `connect` interposer at all — there is
no hooked connect to apply the `do_io` treatment or the connect
timeout to. -/
theorem connect_not_hooked_counterexample :
    hookFunList.contains "connect" = true ∧
      hookImplList.contains "connect" = false := by
  decide

/-- C2 (amended): the configuration key `tcp.connect.timeout` exists
with default 5000 ms; `_HookIniter` copies it into `s_connect_timeout`
and a registered listener hot-reloads it at runtime — but `hook.cc`
implements no hooked `connect` (nor `socket`/`accept`), so the value is
never consumed and `connect` calls are not intercepted. -/
theorem tcp_connect_timeout_amended :
    tcpConnectTimeoutDefault = 5000 ∧
      sConnectTimeout [HookEvent.initer tcpConnectTimeoutDefault] = 5000 ∧
      (∀ evs old_value new_value,
        sConnectTimeout (evs ++ [HookEvent.listener old_value new_value]) =
          intToU64 new_value) ∧
      hookImplList.contains "connect" = false ∧
      hookImplList.contains "socket" = false ∧
      hookImplList.contains "accept" = false := by
  refine ⟨rfl, by decide, ?_, by decide, by decide, by decide⟩
  intro evs old_value new_value
  simp [sConnectTimeout, List.foldl_append, sConnectTimeoutStep]

/-- C3 counterexample: when the original call returns `-1` with
`errno == EINTR`, `do_io` does not retry directly — it registers the
event and yields, exactly as for `EAGAIN`. -/
theorem do_io_eintr_counterexample :
    do_io_decision (-1) EINTR = DoIoStep.registerWaitRetry ∧
      do_io_decision (-1) EAGAIN = DoIoStep.registerWaitRetry := by
  decide

/-- C3 (amended): `do_io` registers the event (waiter = current fiber)
and yields-to-hold exactly when the original call returned `-1` with
`errno` equal to `EAGAIN` or `EINTR` — the two are treated identically,
with no direct-retry path for `EINTR`; every other outcome returns
verbatim, and after resume `errno == ETIMEDOUT` (and only that) turns
into a `-1` return instead of a retry. -/
theorem do_io_decision_spec (rt : Int) (errno : Nat) :
    (do_io_decision rt errno = DoIoStep.registerWaitRetry ↔
        (rt = -1 ∧ (errno = EAGAIN ∨ errno = EINTR))) ∧
      (do_io_decision rt errno ≠ DoIoStep.registerWaitRetry →
        do_io_decision rt errno = DoIoStep.ret rt) ∧
      (do_io_afterResume errno = ResumeStep.timedOut ↔ errno = ETIMEDOUT) := by
  refine ⟨?_, ?_, ?_⟩
  · unfold do_io_decision
    by_cases h1 : rt ≠ -1 ∨ (errno ≠ EAGAIN ∧ errno ≠ EINTR)
    · rw [if_pos h1]
      constructor
      · intro hc
        exact absurd hc (by simp)
      · intro hc
        rcases h1 with h | h
        · exact absurd hc.1 h
        · rcases hc.2 with h2 | h2
          · exact absurd h2 h.1
          · exact absurd h2 h.2
    · rw [if_neg h1]
      push_neg at h1
      rw [if_pos]
      · constructor
        · intro _
          refine ⟨h1.1, ?_⟩
          by_cases he : errno = EAGAIN
          · exact Or.inl he
          · exact Or.inr (h1.2 he)
        · intro _
          rfl
      · by_cases he : errno = EAGAIN
        · exact Or.inl he
        · exact Or.inr (h1.2 he)
  · intro hne
    unfold do_io_decision at hne ⊢
    by_cases h1 : rt ≠ -1 ∨ (errno ≠ EAGAIN ∧ errno ≠ EINTR)
    · rw [if_pos h1]
    · rw [if_neg h1] at hne ⊢
      by_cases h2 : errno = EAGAIN ∨ errno = EINTR
      · rw [if_pos h2] at hne
        exact absurd rfl hne
      · rw [if_neg h2]
  · unfold do_io_afterResume
    by_cases h : errno = ETIMEDOUT
    · simp [h]
    · simp [h]

/-- Witness for C3's amended theorem at `rt = 0`, `errno = EINTR` (a
successful call is returned verbatim). -/
theorem do_io_decision_spec_witness :
    ((do_io_decision 0 EINTR = DoIoStep.registerWaitRetry ↔
        ((0 : Int) = -1 ∧ (EINTR = EAGAIN ∨ EINTR = EINTR))) ∧
      (do_io_decision 0 EINTR ≠ DoIoStep.registerWaitRetry →
        do_io_decision 0 EINTR = DoIoStep.ret 0) ∧
      (do_io_afterResume EINTR = ResumeStep.timedOut ↔ EINTR = ETIMEDOUT)) :=
  do_io_decision_spec 0 EINTR

/-- C10: with the hook enabled and a current-thread IOManager, `usleep`
arms a timer for `usec / 1000` ms (integer division): its deadline is
`now + usec / 1000`, so any `usec < 1000` yields a timer that is
already due (`next_timeout() = 0` — the call can return immediately),
and the hooked path always returns 0. -/
theorem usleep_hooked_spec (usec : Nat) (tm : TimerManager)
    (now_ms tid cb : Nat) :
    (∃ front, usleep true true usec tm now_ms tid cb =
        UsleepOutcome.hooked
          { tm with m_timers := setInsert tm.m_timers (⟨false, usec / 1000, now_ms + usec / 1000, some cb, tid⟩ : Timer) }
          front 0) ∧
      (usec < 1000 → now_ms + usec / 1000 = now_ms) ∧
      (usec < 1000 → tm.m_timers = [] →
        getNextTimer
          { tm with m_timers := setInsert tm.m_timers (⟨false, usec / 1000, now_ms + usec / 1000, some cb, tid⟩ : Timer) }
          now_ms = 0) := by
  refine ⟨⟨(addTimer tm (usec / 1000) (some cb) false now_ms tid).2, ?_⟩, ?_, ?_⟩
  · simp [usleep, addTimer]
  · intro hlt
    omega
  · intro hlt hempty
    rw [hempty]
    simp [setInsert, getNextTimer]
    omega

/-- Witness for C10: `usleep(999)` at `now = 50000` on an empty timer
set arms a timer due immediately and returns 0. -/
theorem usleep_hooked_spec_witness :
    (∃ front, usleep true true 999 ⟨[], 0⟩ 50000 1 2 =
        UsleepOutcome.hooked
          { m_timers := setInsert [] (⟨false, 999 / 1000, 50000 + 999 / 1000, some 2, 1⟩ : Timer),
            m_previouseTime := 0 } front 0) ∧
      (999 < 1000 → 50000 + 999 / 1000 = 50000) ∧
      (999 < 1000 → ([] : List Timer) = [] →
        getNextTimer
          { m_timers := setInsert [] (⟨false, 999 / 1000, 50000 + 999 / 1000, some 2, 1⟩ : Timer),
            m_previouseTime := 0 } 50000 = 0) :=
  usleep_hooked_spec 999 ⟨[], 0⟩ 50000 1 2

end Sylar
